import Mathlib

/-!
Shallow embedding of the journey core of `src/app.py` (class `MysteryShopperAI`)
and verification of the frozen claims about it.

The embedding models the two oracle wrappers `get_ai_decision` and
`analyze_screenshot_ux`, the click-strategy dispatch, and the step loop of
`run_journey`.  External collaborators (the browser session and the vision
oracle) are modelled as an environment (`World`/`StepEnv`) that fixes, for each
step, whether the screenshot succeeds, what the oracle answers (or that it
raises), and which click strategies succeed.  The progress callback is a pure
side channel (per the collaborator contract it never raises), and the oracle
returns either an exception or a well-formed structured value.  Observable
behaviour is recorded as a trace of events, so that ordering and
resource-release properties can be stated.
-/

/-- The `Decision` JSON object produced once per step by the oracle
(see the prompt in `get_ai_decision`).  `action` stays a plain string,
as in the source, which compares it against string literals. -/
structure Decision where
  action : String
  label : String
  value : String
  reason : String
  ux_observation : String
deriving DecidableEq

/-- One entry of `ux_issues` in the UX-analysis JSON object. -/
structure UxIssue where
  severity : String
  issue : String
  location : String
  impact : String
deriving DecidableEq

/-- One entry of `actionable_suggestions` in the UX-analysis JSON object. -/
structure Suggestion where
  suggestion : String
  implementation : String
  expected_impact : String
deriving DecidableEq

/-- The `UxAnalysis` JSON object produced once per step by the oracle
(see the prompt in `analyze_screenshot_ux`). -/
structure UxAnalysis where
  page_type : String
  ux_issues : List UxIssue
  positive_aspects : List String
  actionable_suggestions : List Suggestion
  conversion_score : Int
  overall_assessment : String
deriving DecidableEq

/-- The degraded default returned by the `except` handler of
`get_ai_decision` (src/app.py lines 53-60). -/
def degradedDecision (e : String) : Decision :=
  { action := "finish"
    label := "Analysis complete"
    value := ""
    reason := "AI error: " ++ e.take 50
    ux_observation := "Error occurred" }

/-- Embeds `MysteryShopperAI.get_ai_decision` (src/app.py lines 19-60): the whole
body is wrapped in `try/except`; a raising oracle call (network error,
unreadable screenshot, malformed JSON) is replaced by the degraded default,
a successful call returns the parsed structured value unchanged. -/
def get_ai_decision (r : Except String Decision) : Decision :=
  match r with
  | Except.ok d => d
  | Except.error e => degradedDecision e

/-- The degraded default returned by the `except` handler of
`analyze_screenshot_ux` (src/app.py lines 100-108). -/
def degradedUx (e : String) : UxAnalysis :=
  { page_type := "unknown"
    ux_issues := []
    positive_aspects := []
    actionable_suggestions := []
    conversion_score := 0
    overall_assessment := "Analysis error: " ++ e.take 50 }

/-- Embeds `MysteryShopperAI.analyze_screenshot_ux` (src/app.py lines 62-108):
degrades a raising oracle call to `degradedUx`, passes a successful
structured value through unchanged. -/
def analyze_screenshot_ux (r : Except String UxAnalysis) : UxAnalysis :=
  match r with
  | Except.ok u => u
  | Except.error e => degradedUx e

/-- The page-type enumeration announced by the spec's data model
(and by the prompt of `analyze_screenshot_ux`). -/
def pageTypeEnum : List String := ["homepage", "signup", "login", "other"]

/-- Observable events of one `run_journey` call, in execution order. -/
inductive Event where
  | launch
  | gotoCommit (ok : Bool)
  | gotoFull (ok : Bool)
  | shotAttempt (step : Nat) (ok : Bool)
  | decideCall (step : Nat) (shot : String)
  | scoreCall (step : Nat) (shot : String)
  | recordAppend (step : Nat)
  | finishStep (step : Nat)
  | clickTry (step : Nat) (strategy : Nat) (ok : Bool)
  | histAppend (entry : String)
  | scrollTry (step : Nat) (ok : Bool)
  | closeBrowser
deriving DecidableEq

/-- Result of dispatching one `click` decision: emitted events, whether some
strategy clicked, and the entries appended to `self.action_history`. -/
structure ClickOut where
  events : List Event
  clicked : Bool
  hist : List String
deriving DecidableEq

/-- The `for strategy in [...]` loop of the click branch
(src/app.py lines 211-225): try each strategy in order; on the first
success record the click in the action history and stop; a failing
strategy is swallowed and the next one is tried. -/
def clickGo (s : Nat) (label : String) : Nat → List Bool → ClickOut
  | _, [] => ⟨[], false, []⟩
  | idx, ok :: rest =>
    if ok then
      ⟨[Event.clickTry s idx true, Event.histAppend ("Clicked: " ++ label)],
       true, ["Clicked: " ++ label]⟩
    else
      let c := clickGo s label (idx + 1) rest
      ⟨Event.clickTry s idx false :: c.events, c.clicked, c.hist⟩

/-- Click dispatch over the ordered outcomes of the four locator strategies. -/
def clickDispatch (s : Nat) (label : String) (outcomes : List Bool) : ClickOut :=
  clickGo s label 0 outcomes

/-- Index of the first `true` in a list of strategy outcomes. -/
def firstTrueIdx : List Bool → Option Nat
  | [] => none
  | b :: bs => if b then some 0 else (firstTrueIdx bs).map (· + 1)

/-- A DOM element as far as the locator strategies observe it:
its rendered text, its accessible role, and its accessible name. -/
structure PageElement where
  text : String
  role : String
  name : String
deriving DecidableEq

/-- Predicate `leadsWith pat l`: `pat` is an initial segment of `l`. -/
def leadsWith : List Char → List Char → Bool
  | [], _ => true
  | _ :: _, [] => false
  | a :: as, b :: bs => a == b && leadsWith as bs

/-- Predicate `hasSub pat l`: `pat` occurs contiguously inside `l`. -/
def hasSub (pat : List Char) : List Char → Bool
  | [] => leadsWith pat []
  | c :: cs => leadsWith pat (c :: cs) || hasSub pat cs

/-- Substring containment on strings. -/
def containsSub (hay sub : String) : Bool := hasSub sub.data hay.data

/-- Models `page.get_by_text(label, exact=False)` and the `text=label` locator
engine: some element whose text contains `label` as a substring. -/
def pageHasTextSub (page : List PageElement) (label : String) : Bool :=
  page.any (fun el => containsSub el.text label)

/-- Models `page.get_by_role(role, name=label)`: some element with the given
accessible role whose accessible name is `label`. -/
def pageHasRole (page : List PageElement) (role label : String) : Bool :=
  page.any (fun el => el.role == role && el.name == label)

/-- Some element whose text is exactly `label` (what an exact text match
would resolve; the source does not use this: its first strategy passes
`exact=False`). -/
def pageHasTextExact (page : List PageElement) (label : String) : Bool :=
  page.any (fun el => el.text == label)

/-- The outcomes of the four strategies in the order the SOURCE tries them
(src/app.py lines 211-216): `get_by_text(label, exact=False)` (substring),
role "button" by name, role "link" by name, `locator("text=label")`
(substring). -/
def codeClickOutcomes (page : List PageElement) (label : String) : List Bool :=
  [pageHasTextSub page label,
   pageHasRole page "button" label,
   pageHasRole page "link" label,
   pageHasTextSub page label]

/-- Modelled from the claim's wording, for comparison with
`codeClickOutcomes`: exact text match first, then role "button", role
"link", substring text match. -/
def claimClickOutcomes (page : List PageElement) (label : String) : List Bool :=
  [pageHasTextExact page label,
   pageHasRole page "button" label,
   pageHasRole page "link" label,
   pageHasTextSub page label]

/-- The environment one loop iteration runs in: whether the screenshot
succeeds, `page.url` at capture time, the oracle's two answers (or the
exception messages they raise), the outcomes of the four click strategies,
and whether `window.scrollBy` succeeds. -/
structure StepEnv where
  screenshotOk : Bool
  pageUrl : String
  decideResult : Except String Decision
  scoreResult : Except String UxAnalysis
  clickOutcomes : List Bool
  scrollOk : Bool

/-- The dict appended to `self.screenshots` (src/app.py lines 186-192). -/
structure StepRecord where
  step : Nat
  url : String
  path : String
  decision : Decision
  ux_analysis : UxAnalysis
deriving DecidableEq

/-- The screenshot file name for a step.  The source uses
`f"step_{step}_{timestamp}.png"`; the wall-clock suffix is elided, keeping
the reference injective in the step index. -/
def shotName (s : Nat) : String := "step_" ++ toString s ++ ".png"

/-- The record built at a step whose screenshot succeeded. -/
def stepRecordOf (e : StepEnv) (s : Nat) : StepRecord :=
  ⟨s, e.pageUrl, shotName s,
   get_ai_decision e.decideResult, analyze_screenshot_ux e.scoreResult⟩

/-- Events common to every successful step, in source order: screenshot,
decide call, score call, append of the record. -/
def stepHeadEvents (s : Nat) : List Event :=
  [Event.shotAttempt s true, Event.decideCall s (shotName s),
   Event.scoreCall s (shotName s), Event.recordAppend s]

/-- Action dispatch of one step (src/app.py lines 201-237): `finish`
stops the loop, `click` runs the strategy chain, `scroll` is best-effort,
any other action string falls through with no effect. -/
def dispatchStep (e : StepEnv) (s : Nat) (d : Decision) :
    List Event × List String × Bool :=
  if d.action == "finish" then ([Event.finishStep s], [], true)
  else if d.action == "click" then
    let c := clickDispatch s d.label e.clickOutcomes
    (c.events, c.hist, false)
  else if d.action == "scroll" then ([Event.scrollTry s e.scrollOk], [], false)
  else ([], [], false)

/-- Output of one loop iteration: events, records appended to
`self.screenshots`, entries appended to `self.action_history`, and
whether the loop `break`s. -/
structure StepOut where
  events : List Event
  recs : List StepRecord
  hist : List String
  stop : Bool

/-- One iteration of the journey loop (src/app.py lines 163-243): a failed
screenshot skips the step (`continue`) without appending anything; a
successful screenshot is followed by the decide call, the score call, the
record append, and the action dispatch. -/
def runStep (e : StepEnv) (s : Nat) : StepOut :=
  if e.screenshotOk then
    let d := get_ai_decision e.decideResult
    let dd := dispatchStep e s d
    ⟨stepHeadEvents s ++ dd.1, [stepRecordOf e s], dd.2.1, dd.2.2⟩
  else ⟨[Event.shotAttempt s false], [], [], false⟩

/-- Accumulated output of the journey loop. -/
structure LoopOut where
  events : List Event
  recs : List StepRecord
  hist : List String

/-- The `for step in range(1, max_steps + 1)` loop: run iterations from
step index `s` with `n` iterations left, stopping early when an iteration
breaks. -/
def runSteps (env : Nat → StepEnv) : Nat → Nat → LoopOut
  | _, 0 => ⟨[], [], []⟩
  | s, n + 1 =>
    let so := runStep (env s) s
    if so.stop then ⟨so.events, so.recs, so.hist⟩
    else
      let rest := runSteps env (s + 1) n
      ⟨so.events ++ rest.events, so.recs ++ rest.recs, so.hist ++ rest.hist⟩

/-- The instance fields set in `MysteryShopperAI.__init__`
(src/app.py lines 14-17). -/
structure ShopperState where
  screenshots : List StepRecord
  action_history : List String
deriving DecidableEq

/-- A freshly constructed `MysteryShopperAI`. -/
def initState : ShopperState := ⟨[], []⟩

/-- How the browser/context/page setup before the initial load goes:
everything succeeds; `chromium.launch` itself raises; or the launch
succeeds and a later setup call (`new_context`, `new_page`, the first
progress report) raises. -/
inductive SetupOutcome where
  | ok
  | launchFail
  | contextFail
deriving DecidableEq

/-- The behaviour of the external collaborators during one
`run_journey` call. -/
structure World where
  setup : SetupOutcome
  gotoCommitOk : Bool
  gotoFullOk : Bool
  steps : Nat → StepEnv

/-- What one `run_journey` call produces: the event trace, the returned
list, and the instance state after the call. -/
structure RunOutput where
  trace : List Event
  result : List StepRecord
  state : ShopperState

/-- Embeds `MysteryShopperAI.run_journey` (src/app.py lines 110-255).
Setup failures are caught by the outermost `except`, which returns `[]`
without closing the browser.  The initial load tries `goto(wait_until=
"commit")` and then a plain `goto`; if both fail the browser is closed and
`[]` returned.  Otherwise the step loop runs and appends to the instance
fields, the browser is closed, and `self.screenshots` (old records
included) is returned. -/
def run_journey (st : ShopperState) (w : World) (maxSteps : Nat) : RunOutput :=
  match w.setup with
  | SetupOutcome.launchFail => ⟨[], [], st⟩
  | SetupOutcome.contextFail => ⟨[Event.launch], [], st⟩
  | SetupOutcome.ok =>
    if w.gotoCommitOk then
      let lo := runSteps w.steps 1 maxSteps
      ⟨Event.launch :: Event.gotoCommit true :: (lo.events ++ [Event.closeBrowser]),
       st.screenshots ++ lo.recs,
       ⟨st.screenshots ++ lo.recs, st.action_history ++ lo.hist⟩⟩
    else if w.gotoFullOk then
      let lo := runSteps w.steps 1 maxSteps
      ⟨Event.launch :: Event.gotoCommit false :: Event.gotoFull true ::
         (lo.events ++ [Event.closeBrowser]),
       st.screenshots ++ lo.recs,
       ⟨st.screenshots ++ lo.recs, st.action_history ++ lo.hist⟩⟩
    else
      ⟨[Event.launch, Event.gotoCommit false, Event.gotoFull false,
        Event.closeBrowser], [], st⟩

/-- The step whose action dispatch an event belongs to, when it is a
dispatch event (click attempt, scroll, finish transition). -/
def dispatchStepOf : Event → Option Nat
  | Event.clickTry s _ _ => some s
  | Event.scrollTry s _ => some s
  | Event.finishStep s => some s
  | _ => none

/-! ### Concrete environments and worlds used as inputs below -/

/-- A well-formed UX analysis the oracle may return. -/
def okUx : UxAnalysis := ⟨"homepage", [], [], [], 75, "clean layout"⟩

/-- A `finish` decision. -/
def finishDecision : Decision := ⟨"finish", "Done", "", "goal reached", "none"⟩

/-- A `scroll` decision. -/
def scrollDecision : Decision := ⟨"scroll", "", "", "explore below the fold", "none"⟩

/-- A `click` decision targeting "Sign up". -/
def clickDecision : Decision := ⟨"click", "Sign up", "", "go to signup", "none"⟩

/-- A step whose oracle decides `finish`. -/
def envFinish : StepEnv :=
  ⟨true, "https://example.com", Except.ok finishDecision, Except.ok okUx,
   [false, false, false, false], true⟩

/-- A step whose oracle decides `scroll`. -/
def envScroll : StepEnv :=
  ⟨true, "https://example.com", Except.ok scrollDecision, Except.ok okUx,
   [false, false, false, false], true⟩

/-- A step whose oracle decides `click` and where all four click
strategies fail. -/
def envClickFail : StepEnv :=
  ⟨true, "https://example.com", Except.ok clickDecision, Except.ok okUx,
   [false, false, false, false], true⟩

/-- A step whose screenshot capture fails. -/
def envShotFail : StepEnv :=
  ⟨false, "https://example.com", Except.ok scrollDecision, Except.ok okUx,
   [false, false, false, false], true⟩

/-- A world that loads fine and finishes at the first step. -/
def wFinish : World := ⟨SetupOutcome.ok, true, true, fun _ => envFinish⟩

/-- A world where the browser launches but context/page creation raises. -/
def wCtxFail : World := ⟨SetupOutcome.contextFail, true, true, fun _ => envFinish⟩

/-- A world where step 1 is a click whose four strategies all fail and
step 2 finishes. -/
def wClickFail : World :=
  ⟨SetupOutcome.ok, true, true, fun s => if s = 1 then envClickFail else envFinish⟩

/-- A world where step 1's screenshot fails and step 2 finishes. -/
def wShotFail : World :=
  ⟨SetupOutcome.ok, true, true, fun s => if s = 1 then envShotFail else envFinish⟩

/-- A page containing one non-interactive element whose text strictly
contains "Sign in". -/
def pageSub : List PageElement := [⟨"Sign in now", "div", ""⟩]

/-! ### Basic lemmas about the loop embedding -/

lemma runStep_shotFail (e : StepEnv) (s : Nat) (h : e.screenshotOk = false) :
    runStep e s = ⟨[Event.shotAttempt s false], [], [], false⟩ := by
  simp [runStep, h]

lemma runStep_shotOk (e : StepEnv) (s : Nat) (h : e.screenshotOk = true) :
    runStep e s =
      ⟨stepHeadEvents s ++ (dispatchStep e s (get_ai_decision e.decideResult)).1,
       [stepRecordOf e s],
       (dispatchStep e s (get_ai_decision e.decideResult)).2.1,
       (dispatchStep e s (get_ai_decision e.decideResult)).2.2⟩ := by
  simp [runStep, h]

lemma runSteps_zero (env : Nat → StepEnv) (s : Nat) :
    runSteps env s 0 = ⟨[], [], []⟩ := rfl

lemma runSteps_succ_stop (env : Nat → StepEnv) (s n : Nat)
    (h : (runStep (env s) s).stop = true) :
    runSteps env s (n + 1) =
      ⟨(runStep (env s) s).events, (runStep (env s) s).recs,
       (runStep (env s) s).hist⟩ := by
  simp [runSteps, h]

lemma runSteps_succ_go (env : Nat → StepEnv) (s n : Nat)
    (h : (runStep (env s) s).stop = false) :
    runSteps env s (n + 1) =
      ⟨(runStep (env s) s).events ++ (runSteps env (s + 1) n).events,
       (runStep (env s) s).recs ++ (runSteps env (s + 1) n).recs,
       (runStep (env s) s).hist ++ (runSteps env (s + 1) n).hist⟩ := by
  simp [runSteps, h]

lemma runStep_recs_len (e : StepEnv) (s : Nat) : (runStep e s).recs.length ≤ 1 := by
  cases h : e.screenshotOk
  · rw [runStep_shotFail e s h]; simp
  · rw [runStep_shotOk e s h]; simp

lemma runSteps_length (env : Nat → StepEnv) :
    ∀ (n s : Nat), (runSteps env s n).recs.length ≤ n := by
  intro n
  induction n with
  | zero => intro s; simp [runSteps_zero]
  | succ n ih =>
    intro s
    cases h : (runStep (env s) s).stop
    · rw [runSteps_succ_go env s n h]
      have h1 := runStep_recs_len (env s) s
      have h2 := ih (s + 1)
      simp only [List.length_append]
      omega
    · rw [runSteps_succ_stop env s n h]
      have h1 := runStep_recs_len (env s) s
      show (runStep (env s) s).recs.length ≤ n + 1
      omega

lemma runStep_recs_mem (e : StepEnv) (s : Nat) (r : StepRecord)
    (h : r ∈ (runStep e s).recs) :
    e.screenshotOk = true ∧ r = stepRecordOf e s := by
  cases hs : e.screenshotOk
  · rw [runStep_shotFail e s hs] at h; simp at h
  · rw [runStep_shotOk e s hs] at h; simp at h; exact ⟨rfl, h⟩

lemma runSteps_recs_mem (env : Nat → StepEnv) :
    ∀ (n s : Nat) (r : StepRecord), r ∈ (runSteps env s n).recs →
      s ≤ r.step ∧ (env r.step).screenshotOk = true ∧
      r = stepRecordOf (env r.step) r.step := by
  intro n
  induction n with
  | zero => intro s r h; simp [runSteps_zero] at h
  | succ n ih =>
    intro s r h
    cases hstop : (runStep (env s) s).stop
    · rw [runSteps_succ_go env s n hstop] at h
      rcases List.mem_append.mp h with h | h
      · obtain ⟨hok, hr⟩ := runStep_recs_mem (env s) s r h
        subst hr
        exact ⟨Nat.le_refl s, hok, rfl⟩
      · obtain ⟨h1, h2, h3⟩ := ih (s + 1) r h
        exact ⟨by omega, h2, h3⟩
    · rw [runSteps_succ_stop env s n hstop] at h
      obtain ⟨hok, hr⟩ := runStep_recs_mem (env s) s r h
      subst hr
      exact ⟨Nat.le_refl s, hok, rfl⟩

lemma runSteps_pairwise (env : Nat → StepEnv) :
    ∀ (n s : Nat),
      List.Pairwise (· < ·) ((runSteps env s n).recs.map (fun r => r.step)) := by
  intro n
  induction n with
  | zero => intro s; simp [runSteps_zero]
  | succ n ih =>
    intro s
    cases hstop : (runStep (env s) s).stop
    · rw [runSteps_succ_go env s n hstop]
      rw [List.map_append, List.pairwise_append]
      refine ⟨?_, ih (s + 1), ?_⟩
      · cases hs : (env s).screenshotOk
        · rw [runStep_shotFail _ _ hs]; simp
        · rw [runStep_shotOk _ _ hs]; simp
      · intro a ha b hb
        rcases List.mem_map.mp ha with ⟨ra, hra, hra2⟩
        rcases List.mem_map.mp hb with ⟨rb, hrb, hrb2⟩
        obtain ⟨_, hraS⟩ := runStep_recs_mem (env s) s ra hra
        obtain ⟨hge, _, _⟩ := runSteps_recs_mem env n (s + 1) rb hrb
        subst hra2; subst hrb2; subst hraS
        simp only [stepRecordOf]
        omega
    · rw [runSteps_succ_stop env s n hstop]
      cases hs : (env s).screenshotOk
      · rw [runStep_shotFail _ _ hs]; simp
      · rw [runStep_shotOk _ _ hs]; simp

/-! ### Dispatch and click lemmas -/

lemma clickGo_events_mem (s : Nat) (label : String) :
    ∀ (outs : List Bool) (idx : Nat) (ev : Event),
      ev ∈ (clickGo s label idx outs).events →
      dispatchStepOf ev = none ∨ dispatchStepOf ev = some s := by
  intro outs
  induction outs with
  | nil => intro idx ev h; simp [clickGo] at h
  | cons b rest ih =>
    intro idx ev h
    cases b
    · simp only [clickGo, if_neg Bool.false_ne_true] at h
      rcases List.mem_cons.mp h with h | h
      · subst h; right; rfl
      · exact ih (idx + 1) ev h
    · simp only [clickGo, if_pos rfl] at h
      rcases List.mem_cons.mp h with h | h
      · subst h; right; rfl
      · simp at h; subst h; left; rfl

lemma stepHeadEvents_mem (s : Nat) (ev : Event) (h : ev ∈ stepHeadEvents s) :
    dispatchStepOf ev = none := by
  simp [stepHeadEvents] at h
  rcases h with h | h | h | h <;> subst h <;> rfl

lemma dispatchStep_events_mem (e : StepEnv) (s : Nat) (d : Decision) (ev : Event)
    (h : ev ∈ (dispatchStep e s d).1) :
    dispatchStepOf ev = none ∨ dispatchStepOf ev = some s := by
  simp only [dispatchStep] at h
  split at h
  · simp at h; subst h; right; rfl
  · split at h
    · exact clickGo_events_mem s d.label e.clickOutcomes 0 ev h
    · split at h
      · simp at h; subst h; right; rfl
      · simp at h

lemma runStep_events_mem (e : StepEnv) (s : Nat) (ev : Event)
    (h : ev ∈ (runStep e s).events) :
    dispatchStepOf ev = none ∨ dispatchStepOf ev = some s := by
  cases hs : e.screenshotOk
  · rw [runStep_shotFail _ _ hs] at h
    simp at h; subst h; left; rfl
  · rw [runStep_shotOk _ _ hs] at h
    rcases List.mem_append.mp h with h | h
    · exact Or.inl (stepHeadEvents_mem s ev h)
    · exact dispatchStep_events_mem e s _ ev h

lemma dispatchStep_stop (e : StepEnv) (s : Nat) (d : Decision) :
    (dispatchStep e s d).2.2 = (d.action == "finish") := by
  simp only [dispatchStep]
  split
  · rename_i h; simp at h; simp [h]
  · split
    · rename_i h _; simp at h; simp [h]
    · split
      · rename_i h _ _; simp at h; simp [h]
      · rename_i h _ _; simp at h; simp [h]

lemma runStep_stop_iff (e : StepEnv) (s : Nat) :
    (runStep e s).stop = true ↔
      e.screenshotOk = true ∧ (get_ai_decision e.decideResult).action = "finish" := by
  cases hs : e.screenshotOk
  · rw [runStep_shotFail _ _ hs]
    simp
  · rw [runStep_shotOk _ _ hs]
    show (dispatchStep e s (get_ai_decision e.decideResult)).2.2 = true ↔ _
    rw [dispatchStep_stop]
    simp

lemma dispatchStep_finish_events (e : StepEnv) (s : Nat) (d : Decision)
    (h : d.action = "finish") :
    (dispatchStep e s d).1 = [Event.finishStep s] := by
  simp [dispatchStep, h]

/-! ### Ordering lemmas for C4 and C5 -/

lemma runSteps_c4_aux (env : Nat → StepEnv) :
    ∀ (n s : Nat) (r : StepRecord), r ∈ (runSteps env s n).recs →
      ∃ pre post,
        (runSteps env s n).events =
          pre ++ Event.decideCall r.step r.path :: Event.scoreCall r.step r.path ::
            Event.recordAppend r.step :: post ∧
        ∀ ev ∈ pre, dispatchStepOf ev ≠ some r.step := by
  intro n
  induction n with
  | zero => intro s r h; simp [runSteps_zero] at h
  | succ n ih =>
    intro s r h
    cases hstop : (runStep (env s) s).stop
    · rw [runSteps_succ_go env s n hstop] at h ⊢
      rcases List.mem_append.mp h with h | h
      · obtain ⟨hok, hr⟩ := runStep_recs_mem (env s) s r h
        subst hr
        rw [runStep_shotOk _ _ hok]
        refine ⟨[Event.shotAttempt s true],
          (dispatchStep (env s) s (get_ai_decision (env s).decideResult)).1 ++
            (runSteps env (s + 1) n).events, ?_, ?_⟩
        · simp [stepHeadEvents, stepRecordOf]
        · intro ev hev
          simp at hev; subst hev
          simp [dispatchStepOf]
      · obtain ⟨pre, post, hdec, hpre⟩ := ih (s + 1) r h
        obtain ⟨hge, _, _⟩ := runSteps_recs_mem env n (s + 1) r h
        refine ⟨(runStep (env s) s).events ++ pre, post, ?_, ?_⟩
        · rw [hdec]; simp [List.append_assoc]
        · intro ev hev
          rcases List.mem_append.mp hev with hev | hev
          · rcases runStep_events_mem (env s) s ev hev with h1 | h1 <;> rw [h1]
            · simp
            · simp; omega
          · exact hpre ev hev
    · rw [runSteps_succ_stop env s n hstop] at h ⊢
      obtain ⟨hok, hr⟩ := runStep_recs_mem (env s) s r h
      subst hr
      rw [runStep_shotOk _ _ hok]
      refine ⟨[Event.shotAttempt s true],
        (dispatchStep (env s) s (get_ai_decision (env s).decideResult)).1, ?_, ?_⟩
      · simp [stepHeadEvents, stepRecordOf]
      · intro ev hev
        simp at hev; subst hev
        simp [dispatchStepOf]

lemma runSteps_finish_aux (env : Nat → StepEnv) :
    ∀ (n s : Nat) (pre : List StepRecord) (r : StepRecord) (post : List StepRecord),
      (runSteps env s n).recs = pre ++ r :: post →
      r.decision.action = "finish" →
      post = [] ∧ Event.finishStep r.step ∈ (runSteps env s n).events := by
  intro n
  induction n with
  | zero =>
    intro s pre r post h _
    rw [runSteps_zero] at h
    exact absurd h.symm (List.append_ne_nil_of_right_ne_nil pre (by simp))
  | succ n ih =>
    intro s pre r post h hfin
    cases hstop : (runStep (env s) s).stop
    · rw [runSteps_succ_go env s n hstop] at h ⊢
      cases hs : (env s).screenshotOk
      · rw [runStep_shotFail _ _ hs] at h ⊢
        simp only [List.nil_append] at h
        obtain ⟨h1, h2⟩ := ih (s + 1) pre r post h hfin
        refine ⟨h1, ?_⟩
        simp only
        exact List.mem_append_right _ h2
      · rw [runStep_shotOk _ _ hs] at h ⊢
        have hne : (get_ai_decision (env s).decideResult).action ≠ "finish" := by
          intro hc
          have := (runStep_stop_iff (env s) s).mpr ⟨hs, hc⟩
          rw [hstop] at this
          exact Bool.false_ne_true this
        cases pre with
        | nil =>
          simp only [List.singleton_append, List.nil_append, List.cons.injEq] at h
          obtain ⟨hr, _⟩ := h
          subst hr
          exact absurd hfin hne
        | cons p pre2 =>
          simp only [List.singleton_append, List.cons_append, List.cons.injEq] at h
          obtain ⟨_, h2⟩ := h
          obtain ⟨h3, h4⟩ := ih (s + 1) pre2 r post h2 hfin
          refine ⟨h3, ?_⟩
          simp only
          exact List.mem_append_right _ h4
    · rw [runSteps_succ_stop env s n hstop] at h ⊢
      obtain ⟨hs, hfin2⟩ := (runStep_stop_iff (env s) s).mp hstop
      rw [runStep_shotOk _ _ hs] at h ⊢
      simp only at h
      cases pre with
      | nil =>
        simp only [List.nil_append, List.cons.injEq] at h
        obtain ⟨hr, hpost⟩ := h
        subst hr
        refine ⟨hpost.symm, ?_⟩
        rw [dispatchStep_finish_events _ _ _ hfin2]
        simp [stepRecordOf, stepHeadEvents]
      | cons p pre2 =>
        simp only [List.cons_append, List.cons.injEq] at h
        obtain ⟨_, h2⟩ := h
        exact absurd h2.symm (List.append_ne_nil_of_right_ne_nil pre2 (by simp))

/-! ### Unfolding lemmas for run_journey -/

lemma run_journey_ok_commit (st : ShopperState) (w : World) (n : Nat)
    (h1 : w.setup = SetupOutcome.ok) (h2 : w.gotoCommitOk = true) :
    run_journey st w n =
      ⟨Event.launch :: Event.gotoCommit true ::
         ((runSteps w.steps 1 n).events ++ [Event.closeBrowser]),
       st.screenshots ++ (runSteps w.steps 1 n).recs,
       ⟨st.screenshots ++ (runSteps w.steps 1 n).recs,
        st.action_history ++ (runSteps w.steps 1 n).hist⟩⟩ := by
  obtain ⟨su, gc, gf, stf⟩ := w
  change su = SetupOutcome.ok at h1
  change gc = true at h2
  subst h1; subst h2
  rfl

lemma run_journey_ok_full (st : ShopperState) (w : World) (n : Nat)
    (h1 : w.setup = SetupOutcome.ok) (h2 : w.gotoCommitOk = false)
    (h3 : w.gotoFullOk = true) :
    run_journey st w n =
      ⟨Event.launch :: Event.gotoCommit false :: Event.gotoFull true ::
         ((runSteps w.steps 1 n).events ++ [Event.closeBrowser]),
       st.screenshots ++ (runSteps w.steps 1 n).recs,
       ⟨st.screenshots ++ (runSteps w.steps 1 n).recs,
        st.action_history ++ (runSteps w.steps 1 n).hist⟩⟩ := by
  obtain ⟨su, gc, gf, stf⟩ := w
  change su = SetupOutcome.ok at h1
  change gc = false at h2
  change gf = true at h3
  subst h1; subst h2; subst h3
  rfl

lemma run_journey_load_fail (st : ShopperState) (w : World) (n : Nat)
    (h1 : w.setup = SetupOutcome.ok) (h2 : w.gotoCommitOk = false)
    (h3 : w.gotoFullOk = false) :
    run_journey st w n =
      ⟨[Event.launch, Event.gotoCommit false, Event.gotoFull false,
        Event.closeBrowser], [], st⟩ := by
  obtain ⟨su, gc, gf, stf⟩ := w
  change su = SetupOutcome.ok at h1
  change gc = false at h2
  change gf = false at h3
  subst h1; subst h2; subst h3
  rfl

lemma run_journey_launch_fail (st : ShopperState) (w : World) (n : Nat)
    (h1 : w.setup = SetupOutcome.launchFail) :
    run_journey st w n = ⟨[], [], st⟩ := by
  obtain ⟨su, gc, gf, stf⟩ := w
  change su = SetupOutcome.launchFail at h1
  subst h1
  rfl

lemma run_journey_ctx_fail (st : ShopperState) (w : World) (n : Nat)
    (h1 : w.setup = SetupOutcome.contextFail) :
    run_journey st w n = ⟨[Event.launch], [], st⟩ := by
  obtain ⟨su, gc, gf, stf⟩ := w
  change su = SetupOutcome.contextFail at h1
  subst h1
  rfl

lemma run_journey_result_fresh (w : World) (n : Nat) :
    (run_journey initState w n).result = [] ∨
    (run_journey initState w n).result = (runSteps w.steps 1 n).recs := by
  cases h1 : w.setup
  · cases h2 : w.gotoCommitOk
    · cases h3 : w.gotoFullOk
      · rw [run_journey_load_fail initState w n h1 h2 h3]; left; rfl
      · rw [run_journey_ok_full initState w n h1 h2 h3]; right; rfl
    · rw [run_journey_ok_commit initState w n h1 h2]; right; rfl
  · rw [run_journey_launch_fail initState w n h1]; left; rfl
  · rw [run_journey_ctx_fail initState w n h1]; left; rfl

/-! ### Claims -/

/-- Claim C1: for every maxSteps ≥ 1, a journey run on a freshly
constructed controller returns a journey log of length at most maxSteps:
the loop iterates step indices 1..maxSteps, each iteration appends at most
one record, and a finish decision stops iteration early. -/
theorem C1_journey_length_le_max_steps (w : World) (maxSteps : Nat)
    (_h : 1 ≤ maxSteps) :
    ((run_journey initState w maxSteps).result).length ≤ maxSteps := by
  rcases run_journey_result_fresh w maxSteps with he | he <;> rw [he]
  · simp
  · exact runSteps_length w.steps maxSteps 1

theorem C1_witness :
    1 ≤ 3 ∧ ((run_journey initState wFinish 3).result).length ≤ 3 :=
  ⟨by decide, C1_journey_length_le_max_steps wFinish 3 (by decide)⟩

/-- Claim C2: the claim asks for exactly one `browser.close()` on every
exit path, but the outermost exception handler of `run_journey`
(src/app.py lines 252-255) returns `[]` without closing the browser.  In
the world `wCtxFail` the launch succeeds and a later setup call raises:
the trace shows the launch and no close, while a normal journey
(`wFinish`) closes exactly once. -/
theorem C2_fatal_error_skips_browser_close :
    (run_journey initState wCtxFail 3).trace = [Event.launch] ∧
    Event.closeBrowser ∉ (run_journey initState wCtxFail 3).trace ∧
    (run_journey initState wCtxFail 3).result = [] ∧
    (run_journey initState wFinish 3).trace.count Event.closeBrowser = 1 := by
  decide

/-- Claim C3: every oracle failure is caught at its call site and replaced
by a degraded default rather than propagated: a failed decide() call
returns the `finish` decision with a diagnostic reason, a failed score()
call returns the zero-score analysis with a diagnostic assessment, and
successful calls pass through, so the loop never sees an oracle
exception. -/
theorem C3_oracle_failure_degraded_at_call_site (e : String) :
    get_ai_decision (Except.error e) = degradedDecision e ∧
    (get_ai_decision (Except.error e)).action = "finish" ∧
    (get_ai_decision (Except.error e)).reason = "AI error: " ++ e.take 50 ∧
    analyze_screenshot_ux (Except.error e) = degradedUx e ∧
    (analyze_screenshot_ux (Except.error e)).conversion_score = 0 ∧
    (analyze_screenshot_ux (Except.error e)).overall_assessment =
      "Analysis error: " ++ e.take 50 ∧
    (∀ d, get_ai_decision (Except.ok d) = d) ∧
    (∀ u, analyze_screenshot_ux (Except.ok u) = u) :=
  ⟨rfl, rfl, rfl, rfl, rfl, rfl, fun _ => rfl, fun _ => rfl⟩

/-- Claim C4: every record of a fresh journey stores the decision and the
UX analysis computed from that step's oracle answers; in the trace the
decide call and the score call carry the very screenshot reference stored
in the record, the decide call comes directly before the score call, and
no dispatch event of that step precedes them. -/
theorem C4_record_same_screenshot_decide_before_score (w : World) (n : Nat)
    (r : StepRecord) (h : r ∈ (run_journey initState w n).result) :
    r.path = shotName r.step ∧
    r.decision = get_ai_decision ((w.steps r.step).decideResult) ∧
    r.ux_analysis = analyze_screenshot_ux ((w.steps r.step).scoreResult) ∧
    ∃ pre post,
      (run_journey initState w n).trace =
        pre ++ Event.decideCall r.step r.path :: Event.scoreCall r.step r.path ::
          Event.recordAppend r.step :: post ∧
      ∀ ev ∈ pre, dispatchStepOf ev ≠ some r.step := by
  have hres := run_journey_result_fresh w n
  rcases hres with he | he
  · rw [he] at h; simp at h
  · rw [he] at h
    obtain ⟨_, _, hrec⟩ := runSteps_recs_mem w.steps n 1 r h
    obtain ⟨pre, post, hdec, hpre⟩ := runSteps_c4_aux w.steps n 1 r h
    have hpath : r.path = shotName r.step := by rw [hrec]; rfl
    have hd : r.decision = get_ai_decision ((w.steps r.step).decideResult) := by
      rw [hrec]; rfl
    have hu : r.ux_analysis = analyze_screenshot_ux ((w.steps r.step).scoreResult) := by
      rw [hrec]; rfl
    refine ⟨hpath, hd, hu, ?_⟩
    cases h1 : w.setup
    · cases h2 : w.gotoCommitOk
      · cases h3 : w.gotoFullOk
        · rw [run_journey_load_fail initState w n h1 h2 h3] at he
          simp at he
          rw [he] at h; simp at h
        · rw [run_journey_ok_full initState w n h1 h2 h3]
          refine ⟨Event.launch :: Event.gotoCommit false :: Event.gotoFull true :: pre,
            post ++ [Event.closeBrowser], ?_, ?_⟩
          · simp only [List.cons_append]
            rw [hdec]
            simp [List.append_assoc]
          · intro ev hev
            rcases List.mem_cons.mp hev with hev | hev
            · subst hev; simp [dispatchStepOf]
            rcases List.mem_cons.mp hev with hev | hev
            · subst hev; simp [dispatchStepOf]
            rcases List.mem_cons.mp hev with hev | hev
            · subst hev; simp [dispatchStepOf]
            · exact hpre ev hev
      · rw [run_journey_ok_commit initState w n h1 h2]
        refine ⟨Event.launch :: Event.gotoCommit true :: pre,
          post ++ [Event.closeBrowser], ?_, ?_⟩
        · simp only [List.cons_append]
          rw [hdec]
          simp [List.append_assoc]
        · intro ev hev
          rcases List.mem_cons.mp hev with hev | hev
          · subst hev; simp [dispatchStepOf]
          rcases List.mem_cons.mp hev with hev | hev
          · subst hev; simp [dispatchStepOf]
          · exact hpre ev hev
    · rw [run_journey_launch_fail initState w n h1] at he
      simp at he
      rw [he] at h; simp at h
    · rw [run_journey_ctx_fail initState w n h1] at he
      simp at he
      rw [he] at h; simp at h

theorem C4_witness :
    (stepRecordOf envFinish 1).path = shotName (stepRecordOf envFinish 1).step ∧
    (stepRecordOf envFinish 1).decision =
      get_ai_decision ((wFinish.steps (stepRecordOf envFinish 1).step).decideResult) ∧
    (stepRecordOf envFinish 1).ux_analysis =
      analyze_screenshot_ux ((wFinish.steps (stepRecordOf envFinish 1).step).scoreResult) ∧
    ∃ pre post,
      (run_journey initState wFinish 3).trace =
        pre ++ Event.decideCall (stepRecordOf envFinish 1).step (stepRecordOf envFinish 1).path ::
          Event.scoreCall (stepRecordOf envFinish 1).step (stepRecordOf envFinish 1).path ::
          Event.recordAppend (stepRecordOf envFinish 1).step :: post ∧
      ∀ ev ∈ pre, dispatchStepOf ev ≠ some (stepRecordOf envFinish 1).step :=
  C4_record_same_screenshot_decide_before_score wFinish 3 (stepRecordOf envFinish 1)
    (by decide)

/-- Claim C5: whenever a step's decision has action `finish` (from the
oracle or from the decide() degraded default), that step's record is the
last one of a fresh journey, and the loop emitted the Finished
transition for that step. -/
theorem C5_finish_record_is_last (w : World) (n : Nat)
    (pre : List StepRecord) (r : StepRecord) (post : List StepRecord)
    (h : (run_journey initState w n).result = pre ++ r :: post)
    (hfin : r.decision.action = "finish") :
    post = [] ∧ Event.finishStep r.step ∈ (run_journey initState w n).trace := by
  rcases run_journey_result_fresh w n with he | he
  · rw [he] at h
    exact absurd h.symm (List.append_ne_nil_of_right_ne_nil pre (by simp))
  · rw [he] at h
    obtain ⟨hp, hev⟩ := runSteps_finish_aux w.steps n 1 pre r post h hfin
    refine ⟨hp, ?_⟩
    cases h1 : w.setup
    · cases h2 : w.gotoCommitOk
      · cases h3 : w.gotoFullOk
        · rw [run_journey_load_fail initState w n h1 h2 h3] at he
          simp only at he
          rw [← he] at h
          exact absurd h.symm (List.append_ne_nil_of_right_ne_nil pre (by simp))
        · rw [run_journey_ok_full initState w n h1 h2 h3]
          exact List.mem_cons_of_mem _ (List.mem_cons_of_mem _
            (List.mem_cons_of_mem _ (List.mem_append_left _ hev)))
      · rw [run_journey_ok_commit initState w n h1 h2]
        exact List.mem_cons_of_mem _ (List.mem_cons_of_mem _
          (List.mem_append_left _ hev))
    · rw [run_journey_launch_fail initState w n h1] at he
      simp only at he
      rw [← he] at h
      exact absurd h.symm (List.append_ne_nil_of_right_ne_nil pre (by simp))
    · rw [run_journey_ctx_fail initState w n h1] at he
      simp only at he
      rw [← he] at h
      exact absurd h.symm (List.append_ne_nil_of_right_ne_nil pre (by simp))

theorem C5_witness :
    ([] : List StepRecord) = [] ∧
    Event.finishStep (stepRecordOf envFinish 1).step ∈
      (run_journey initState wFinish 3).trace :=
  C5_finish_record_is_last wFinish 3 [] (stepRecordOf envFinish 1) []
    (by decide) (by decide)

/-! ### Click characterization lemmas -/

lemma clickGo_char (s : Nat) (label : String) :
    ∀ (outs : List Bool) (idx : Nat),
      (∀ k, firstTrueIdx outs = some k →
        clickGo s label idx outs =
          ⟨(List.range' idx k).map (fun j => Event.clickTry s j false) ++
             [Event.clickTry s (idx + k) true,
              Event.histAppend ("Clicked: " ++ label)],
           true, ["Clicked: " ++ label]⟩) ∧
      (firstTrueIdx outs = none →
        clickGo s label idx outs =
          ⟨(List.range' idx outs.length).map (fun j => Event.clickTry s j false),
           false, []⟩) := by
  intro outs
  induction outs with
  | nil =>
    intro idx
    constructor
    · intro k hk; simp [firstTrueIdx] at hk
    · intro _; rfl
  | cons b rest ih =>
    intro idx
    constructor
    · intro k hk
      cases b
      · simp only [firstTrueIdx, if_neg Bool.false_ne_true] at hk
        cases hrest : firstTrueIdx rest with
        | none => rw [hrest] at hk; simp at hk
        | some k0 =>
          rw [hrest] at hk
          have hk2 : k0 + 1 = k := by simpa using hk
          subst hk2
          simp only [clickGo, if_neg Bool.false_ne_true]
          rw [(ih (idx + 1)).1 k0 hrest]
          have hr : List.range' idx (k0 + 1) = idx :: List.range' (idx + 1) k0 := rfl
          rw [hr]
          simp [List.map_cons, Nat.add_assoc, Nat.add_comm 1 k0]
      · simp [firstTrueIdx] at hk
        subst hk
        simp [clickGo, List.range']
    · intro hk
      cases b
      · simp only [firstTrueIdx, if_neg Bool.false_ne_true] at hk
        cases hrest : firstTrueIdx rest with
        | some k0 => rw [hrest] at hk; simp at hk
        | none =>
          simp only [clickGo, if_neg Bool.false_ne_true]
          rw [(ih (idx + 1)).2 hrest]
          have hr : List.range' idx (rest.length + 1) = idx :: List.range' (idx + 1) rest.length := rfl
          simp only [List.length_cons, hr, List.map_cons]
      · simp [firstTrueIdx] at hk

lemma clickGo_hist (s : Nat) (label : String) :
    ∀ (outs : List Bool) (idx : Nat),
      ((clickGo s label idx outs).clicked = true →
        (clickGo s label idx outs).hist = ["Clicked: " ++ label]) ∧
      ((clickGo s label idx outs).clicked = false →
        (clickGo s label idx outs).hist = []) := by
  intro outs
  induction outs with
  | nil => intro idx; constructor <;> intro h <;> simp [clickGo] at h ⊢
  | cons b rest ih =>
    intro idx
    cases b
    · simp only [clickGo, if_neg Bool.false_ne_true]
      exact ih (idx + 1)
    · simp [clickGo]

lemma dispatchStep_click (e : StepEnv) (s : Nat) (d : Decision)
    (h : d.action = "click") :
    dispatchStep e s d =
      ((clickDispatch s d.label e.clickOutcomes).events,
       (clickDispatch s d.label e.clickOutcomes).hist, false) := by
  simp [dispatchStep, h]

/-- Claim C6: the claim lists the four locator strategies as (exact text
match, role "button", role "link", substring text match), but the source's
first strategy is `page.get_by_text(label, exact=False)` — a substring
match.  On a page whose only element's text strictly contains the label,
the code's strategy chain succeeds at strategy 0 while the claimed chain
would fall through to strategy 3. -/
theorem C6_click_strategy_order_counterexample :
    codeClickOutcomes pageSub "Sign in" = [true, false, false, true] ∧
    claimClickOutcomes pageSub "Sign in" = [false, false, false, true] ∧
    codeClickOutcomes pageSub "Sign in" ≠ claimClickOutcomes pageSub "Sign in" ∧
    (clickDispatch 1 "Sign in" (codeClickOutcomes pageSub "Sign in")).events ≠
      (clickDispatch 1 "Sign in" (claimClickOutcomes pageSub "Sign in")).events := by
  decide

/-- Claim C6 (amended): a click dispatch tries the four strategies in the
source's order — substring text match (`get_by_text` with `exact=False`),
role "button" by name, role "link" by name, `text=` selector substring
match — stops at the first strategy that succeeds, and when all four fail
it is a no-op that appends nothing to the history. -/
theorem C6_click_first_success_amended (s : Nat) (label : String)
    (page : List PageElement) :
    (∀ k, firstTrueIdx (codeClickOutcomes page label) = some k →
      clickDispatch s label (codeClickOutcomes page label) =
        ⟨(List.range' 0 k).map (fun j => Event.clickTry s j false) ++
           [Event.clickTry s k true, Event.histAppend ("Clicked: " ++ label)],
         true, ["Clicked: " ++ label]⟩) ∧
    (firstTrueIdx (codeClickOutcomes page label) = none →
      clickDispatch s label (codeClickOutcomes page label) =
        ⟨(List.range' 0 4).map (fun j => Event.clickTry s j false),
         false, []⟩) := by
  constructor
  · intro k hk
    have h := (clickGo_char s label (codeClickOutcomes page label) 0).1 k hk
    rw [clickDispatch, h]
    simp [Nat.zero_add]
  · intro hk
    have h := (clickGo_char s label (codeClickOutcomes page label) 0).2 hk
    rw [clickDispatch, h]
    rfl

theorem C6_witness :
    clickDispatch 1 "Sign in" (codeClickOutcomes pageSub "Sign in") =
      ⟨(List.range' 0 0).map (fun j => Event.clickTry 1 j false) ++
         [Event.clickTry 1 0 true, Event.histAppend ("Clicked: " ++ "Sign in")],
       true, ["Clicked: " ++ "Sign in"]⟩ :=
  (C6_click_first_success_amended 1 "Sign in" pageSub).1 0 (by decide)

/-- Claim C7: the claim says the click is appended to the action history
regardless of success or failure, but `self.action_history.append` sits
inside the success branch of the strategy loop (src/app.py line 221): a
click all of whose strategies fail appends nothing, while the journey
does continue to the next step. -/
theorem C7_history_counterexample :
    Event.clickTry 1 0 false ∈ (run_journey initState wClickFail 2).trace ∧
    Event.clickTry 1 3 false ∈ (run_journey initState wClickFail 2).trace ∧
    Event.shotAttempt 2 true ∈ (run_journey initState wClickFail 2).trace ∧
    (run_journey initState wClickFail 2).state.action_history = [] := by
  decide

/-- Claim C7 (amended): after a click dispatch the loop always continues
(the step does not stop the journey), but `"Clicked: label"` is appended
to the action history only when some strategy succeeded; when every
strategy fails nothing is appended. -/
theorem C7_history_only_on_success_amended (e : StepEnv) (s : Nat)
    (h1 : e.screenshotOk = true)
    (h2 : (get_ai_decision e.decideResult).action = "click") :
    (runStep e s).stop = false ∧
    (runStep e s).hist =
      (clickDispatch s (get_ai_decision e.decideResult).label e.clickOutcomes).hist ∧
    ((clickDispatch s (get_ai_decision e.decideResult).label e.clickOutcomes).clicked = true →
      (runStep e s).hist = ["Clicked: " ++ (get_ai_decision e.decideResult).label]) ∧
    ((clickDispatch s (get_ai_decision e.decideResult).label e.clickOutcomes).clicked = false →
      (runStep e s).hist = []) := by
  rw [runStep_shotOk _ _ h1]
  rw [dispatchStep_click e s _ h2]
  refine ⟨rfl, rfl, ?_, ?_⟩
  · intro hc
    exact (clickGo_hist s (get_ai_decision e.decideResult).label e.clickOutcomes 0).1 hc
  · intro hc
    exact (clickGo_hist s (get_ai_decision e.decideResult).label e.clickOutcomes 0).2 hc

theorem C7_witness :
    (runStep envClickFail 1).stop = false ∧
    (runStep envClickFail 1).hist =
      (clickDispatch 1 (get_ai_decision envClickFail.decideResult).label
        envClickFail.clickOutcomes).hist ∧
    ((clickDispatch 1 (get_ai_decision envClickFail.decideResult).label
        envClickFail.clickOutcomes).clicked = true →
      (runStep envClickFail 1).hist =
        ["Clicked: " ++ (get_ai_decision envClickFail.decideResult).label]) ∧
    ((clickDispatch 1 (get_ai_decision envClickFail.decideResult).label
        envClickFail.clickOutcomes).clicked = false →
      (runStep envClickFail 1).hist = []) :=
  C7_history_only_on_success_amended envClickFail 1 (by decide) (by decide)

/-- Claim C8: the claim says a failed screenshot does not consume a
step-index slot, but the journey loop is a `for` over `range(1,
max_steps + 1)` whose `continue` advances the index: in `wShotFail`
step 1's screenshot fails and the single record carries step index 2,
so the log's indices are not the contiguous prefix 1..k. -/
theorem C8_step_slot_counterexample :
    (run_journey initState wShotFail 2).result.map (fun r => r.step) = [2] ∧
    (run_journey initState wShotFail 2).result.length = 1 ∧
    (run_journey initState wShotFail 2).result.map (fun r => r.step) ≠
      List.range' 1 ((run_journey initState wShotFail 2).result.length) := by
  decide

/-- Claim C8 (amended): when a screenshot capture fails at some step, no
record is created for that step and the journey continues, but the failed
step still consumes its step-index slot: the log's step indices are
strictly increasing and need not be contiguous. -/
theorem C8_skip_consumes_slot_amended (w : World) (n sIdx : Nat)
    (h : (w.steps sIdx).screenshotOk = false) :
    (∀ r ∈ (run_journey initState w n).result, r.step ≠ sIdx) ∧
    List.Pairwise (· < ·)
      ((run_journey initState w n).result.map (fun r => r.step)) := by
  rcases run_journey_result_fresh w n with he | he <;> rw [he]
  · simp
  · constructor
    · intro r hr hc
      obtain ⟨_, hok, _⟩ := runSteps_recs_mem w.steps n 1 r hr
      rw [hc, h] at hok
      exact Bool.false_ne_true hok
    · exact runSteps_pairwise w.steps n 1

theorem C8_witness :
    (∀ r ∈ (run_journey initState wShotFail 2).result, r.step ≠ 1) ∧
    List.Pairwise (· < ·)
      ((run_journey initState wShotFail 2).result.map (fun r => r.step)) :=
  C8_skip_consumes_slot_amended wShotFail 2 1 (by decide)

/-- Claim C9: the claim says every UxAnalysis the core produces has a
page_type in {homepage, signup, login, other}, but the degraded default
of `analyze_screenshot_ux` (src/app.py line 102) sets page_type to
"unknown", which is outside that enumeration. -/
theorem C9_page_type_counterexample :
    (analyze_screenshot_ux (Except.error "rate limit")).page_type = "unknown" ∧
    (analyze_screenshot_ux (Except.error "rate limit")).page_type ∉ pageTypeEnum := by
  decide

/-- Claim C9 (amended): a successful score() result is passed through
unvalidated, and the degraded default produced when score() fails has
page_type "unknown" — a value outside the enum {homepage, signup, login,
other}. -/
theorem C9_degraded_page_type_amended (e : String) (u : UxAnalysis) :
    (analyze_screenshot_ux (Except.error e)).page_type = "unknown" ∧
    "unknown" ∉ pageTypeEnum ∧
    analyze_screenshot_ux (Except.ok u) = u :=
  ⟨rfl, by decide, rfl⟩

/-- Claim C10: the journey log and the action history are instance fields
that persist across `run_journey` calls on the same object and are never
reset: every call only appends to them, and a call whose initial load
succeeds returns the whole `self.screenshots` list, first journey's
records included. -/
theorem C10_journey_log_persists (st : ShopperState) (w : World) (n : Nat)
    (h1 : w.setup = SetupOutcome.ok)
    (h2 : w.gotoCommitOk = true ∨ w.gotoFullOk = true) :
    ∃ rs hs,
      (run_journey st w n).result = st.screenshots ++ rs ∧
      (run_journey st w n).state.screenshots = st.screenshots ++ rs ∧
      (run_journey st w n).state.action_history = st.action_history ++ hs := by
  cases h3 : w.gotoCommitOk
  · cases h4 : w.gotoFullOk
    · rcases h2 with h2 | h2
      · rw [h3] at h2; exact absurd h2 Bool.false_ne_true
      · rw [h4] at h2; exact absurd h2 Bool.false_ne_true
    · rw [run_journey_ok_full st w n h1 h3 h4]
      exact ⟨(runSteps w.steps 1 n).recs, (runSteps w.steps 1 n).hist, rfl, rfl, rfl⟩
  · rw [run_journey_ok_commit st w n h1 h3]
    exact ⟨(runSteps w.steps 1 n).recs, (runSteps w.steps 1 n).hist, rfl, rfl, rfl⟩

theorem C10_witness :
    ∃ rs hs,
      (run_journey (run_journey initState wFinish 2).state wFinish 2).result =
        (run_journey initState wFinish 2).state.screenshots ++ rs ∧
      (run_journey (run_journey initState wFinish 2).state wFinish 2).state.screenshots =
        (run_journey initState wFinish 2).state.screenshots ++ rs ∧
      (run_journey (run_journey initState wFinish 2).state wFinish 2).state.action_history =
        (run_journey initState wFinish 2).state.action_history ++ hs :=
  C10_journey_log_persists (run_journey initState wFinish 2).state wFinish 2
    rfl (Or.inl rfl)
